import Mathlib

/-!
# Verification of the notes persistence + sync-status subsystem

Shallow embedding of the application's database module (`db.js`): the
`notes` table is a list of rows plus the engine's AUTOINCREMENT counter,
SQL `CURRENT_TIMESTAMP` is an explicit `now : Nat` argument, and the
remote HTTP call of the sync cycle is an explicit `FetchOutcome` oracle
argument.  Fallible operations return `Except`/`Option` mirroring the
JavaScript control flow.
-/

deriving instance DecidableEq for Except

namespace NotesDb

/-- The `sync_status` column: the source stores the strings
`'pending'`, `'synced'`, `'error'`. -/
inductive SyncStatus where
  | pending
  | synced
  | error
deriving DecidableEq, Repr

/-- One row of the `notes` table (schema from `initializeDatabase`).
`content` is never NULL in any state reachable through this module
(`addNote` defaults it to `''`, `addNotesBulk` uses `note.content || ''`),
so it is embedded as `String`.  Timestamps are `Nat` (SQLite stores
`CURRENT_TIMESTAMP` strings whose lexicographic order is chronological). -/
structure Note where
  id : Nat
  title : String
  content : String
  created_at : Nat
  updated_at : Nat
  synced_at : Option Nat
  sync_status : SyncStatus
deriving DecidableEq, Repr

/-- The database state: the rows of the `notes` table in rowid order,
plus the next AUTOINCREMENT id the engine will assign. -/
structure DB where
  notes : List Note
  nextId : Nat
deriving DecidableEq, Repr

/-- Engine invariant: `id` is an AUTOINCREMENT PRIMARY KEY, so ids are
unique and below the next id to be assigned. -/
def DB.WF (db : DB) : Prop :=
  (db.notes.map Note.id).Nodup ∧ ∀ n ∈ db.notes, n.id < db.nextId

instance (db : DB) : Decidable db.WF := by
  unfold DB.WF
  infer_instance

/-- `getNoteById`: `SELECT * FROM notes WHERE id = ?` via `stmt.get`,
i.e. the first matching row, `null` (here `none`) when there is none. -/
def getNoteById (i : Nat) (db : DB) : Option Note :=
  db.notes.find? (fun n => n.id == i)

/-- One `INSERT INTO notes (title, content, sync_status) VALUES (?, ?, 'pending')`:
the engine assigns `nextId` as the rowid, `created_at`/`updated_at` take the
`CURRENT_TIMESTAMP` default, and the statement reports `lastInsertRowid`. -/
def insertRow (title content : String) (now : Nat) (db : DB) : Nat × DB :=
  (db.nextId,
   { notes := db.notes ++
       [{ id := db.nextId, title := title, content := content,
          created_at := now, updated_at := now, synced_at := none,
          sync_status := SyncStatus.pending }],
     nextId := db.nextId + 1 })

/-- `addNote(title, content = '')`: insert, then read the new row back
through `getNoteById(result.lastInsertRowid)`. -/
def addNote (title content : String) (now : Nat) (db : DB) : Option Note × DB :=
  let inserted := insertRow title content now db
  (getNoteById inserted.1 inserted.2, inserted.2)

/-- The four sortable columns of `getNotes`. -/
inductive SortCol where
  | id
  | title
  | created_at
  | updated_at
deriving DecidableEq, Repr

/-- `allowedColumns` of `getNotes`. -/
def allowedColumns : List String := ["id", "title", "created_at", "updated_at"]

/-- Interpretation of a (validated) sort-column name. -/
def parseSortCol (s : String) : SortCol :=
  if s = "id" then SortCol.id
  else if s = "title" then SortCol.title
  else if s = "updated_at" then SortCol.updated_at
  else SortCol.created_at

/-- `ORDER BY c` comparison between two rows (ascending). -/
def colLe (c : SortCol) (a b : Note) : Prop :=
  match c with
  | SortCol.id => a.id ≤ b.id
  | SortCol.title => a.title ≤ b.title
  | SortCol.created_at => a.created_at ≤ b.created_at
  | SortCol.updated_at => a.updated_at ≤ b.updated_at

instance (c : SortCol) (a b : Note) : Decidable (colLe c a b) :=
  match c with
  | SortCol.id => inferInstanceAs (Decidable (a.id ≤ b.id))
  | SortCol.title => inferInstanceAs (Decidable (a.title ≤ b.title))
  | SortCol.created_at => inferInstanceAs (Decidable (a.created_at ≤ b.created_at))
  | SortCol.updated_at => inferInstanceAs (Decidable (a.updated_at ≤ b.updated_at))

/-- `ORDER BY c ASC` / `ORDER BY c DESC` as a row comparison. -/
def orderBy (c : SortCol) (asc : Bool) (a b : Note) : Prop :=
  match asc with
  | true => colLe c a b
  | false => colLe c b a

instance (c : SortCol) (asc : Bool) : DecidableRel (orderBy c asc) :=
  fun a b =>
    match asc with
    | true => inferInstanceAs (Decidable (colLe c a b))
    | false => inferInstanceAs (Decidable (colLe c b a))

instance (c : SortCol) (asc : Bool) : IsTotal Note (orderBy c asc) where
  total a b := by
    cases asc <;> cases c <;> simp only [orderBy, colLe] <;> apply le_total

instance (c : SortCol) (asc : Bool) : IsTrans Note (orderBy c asc) where
  trans a b c' := by
    cases asc <;> cases c <;> simp only [orderBy, colLe] <;>
      first
      | exact fun h1 h2 => le_trans h1 h2
      | exact fun h1 h2 => le_trans h2 h1

/-- ASCII uppercasing of a string, embedding the source's
`order.toUpperCase()` (all inputs of interest are ASCII). -/
def jsToUpperCase (s : String) : String :=
  String.mk (s.data.map Char.toUpper)

/-- `getNotes(sortBy = 'created_at', order = 'DESC')`: the sort column is
validated against `allowedColumns` (anything else falls back to
`created_at`), the order is `ASC` exactly when `order.toUpperCase()`
is `'ASC'`, and the rows are returned sorted accordingly. -/
def getNotes (sortBy order : String) (db : DB) : List Note :=
  let sortColumn := if sortBy ∈ allowedColumns then sortBy else "created_at"
  let asc := jsToUpperCase order = "ASC"
  List.insertionSort (orderBy (parseSortCol sortColumn) asc) db.notes

/-- `updateNote(id, title, content)`: `UPDATE notes SET title = ?,
content = ?, updated_at = CURRENT_TIMESTAMP, sync_status = 'pending'
WHERE id = ?`; `result.changes` counts the matched rows; returns `null`
when zero rows matched, else the row read back via `getNoteById`. -/
def updateNote (i : Nat) (title content : String) (now : Nat) (db : DB) :
    Option Note × DB :=
  let changes := db.notes.countP (fun n => n.id == i)
  let db' : DB :=
    { db with
      notes := db.notes.map (fun n =>
        if n.id = i then
          { n with title := title, content := content, updated_at := now,
                   sync_status := SyncStatus.pending }
        else n) }
  if changes = 0 then (none, db') else (getNoteById i db', db')

/-- `deleteNote(id)`: `DELETE FROM notes WHERE id = ?`; returns
`result.changes > 0`. -/
def deleteNote (i : Nat) (db : DB) : Bool × DB :=
  let changes := db.notes.countP (fun n => n.id == i)
  (decide (changes > 0), { db with notes := db.notes.filter (fun n => !(n.id == i)) })

/-- An element of the array passed to `addNotesBulk`.  `title := none`
models a `null`/missing title, which makes the engine raise a
`NOT NULL` constraint violation on that element's insert; the source
reads `note.content || ''`, embedded by `Option.getD "" `. -/
structure NoteInput where
  title : Option String
  content : Option String
deriving DecidableEq, Repr

/-- The body of the `db.transaction` callback of `addNotesBulk`: run the
prepared insert for each element in order, accumulating
`lastInsertRowid`s.  The returned `DB` includes any partial inserts made
before a failure (the raw effect of the loop, before rollback). -/
def insertLoop (inputs : List NoteInput) (now : Nat) (db : DB) :
    Except String (List Nat) × DB :=
  match inputs with
  | [] => (Except.ok [], db)
  | inp :: rest =>
    match inp.title with
    | none => (Except.error "NOT NULL constraint failed: notes.title", db)
    | some t =>
      let inserted := insertRow t (inp.content.getD "") now db
      match insertLoop rest now inserted.2 with
      | (Except.ok ids, db2) => (Except.ok (inserted.1 :: ids), db2)
      | (Except.error e, db2) => (Except.error e, db2)

/-- `addNotesBulk(notes)`: the loop runs inside `db.transaction`, so if
any element's insert raises, the transaction rolls back every insert of
this call (the caller observes the original state and the error); on
success all inserts commit together and the ids are returned in input
order. -/
def addNotesBulk (inputs : List NoteInput) (now : Nat) (db : DB) :
    Except String (List Nat) × DB :=
  match insertLoop inputs now db with
  | (Except.ok ids, db') => (Except.ok ids, db')
  | (Except.error e, _) => (Except.error e, db)

/-- The rows a successful `addNotesBulk` call appends, with ids assigned
consecutively from `startId` (characterisation used by the theorems). -/
def bulkRows (inputs : List NoteInput) (startId now : Nat) : List Note :=
  match inputs with
  | [] => []
  | inp :: rest =>
    { id := startId, title := inp.title.getD "", content := inp.content.getD "",
      created_at := now, updated_at := now, synced_at := none,
      sync_status := SyncStatus.pending } :: bulkRows rest (startId + 1) now

/-- `getNotesToSync`: `SELECT * FROM notes WHERE sync_status IN
('pending','error') ORDER BY created_at ASC`. -/
def getNotesToSync (db : DB) : List Note :=
  List.insertionSort (orderBy SortCol.created_at true)
    (db.notes.filter (fun n =>
      n.sync_status == SyncStatus.pending || n.sync_status == SyncStatus.error))

/-- `markNotesAsSynced(ids)`: empty-set guard returning 0, else a single
`UPDATE notes SET sync_status = 'synced', synced_at = CURRENT_TIMESTAMP
WHERE id IN (...)`, returning `result.changes`. -/
def markNotesAsSynced (ids : List Nat) (now : Nat) (db : DB) : Nat × DB :=
  if ids.isEmpty then (0, db)
  else
    (db.notes.countP (fun n => decide (n.id ∈ ids)),
     { db with
       notes := db.notes.map (fun n =>
         if n.id ∈ ids then
           { n with sync_status := SyncStatus.synced, synced_at := some now }
         else n) })

/-- `markNotesSyncError(ids)`: empty-set guard returning 0, else a single
`UPDATE notes SET sync_status = 'error' WHERE id IN (...)`, returning
`result.changes`. -/
def markNotesSyncError (ids : List Nat) (db : DB) : Nat × DB :=
  if ids.isEmpty then (0, db)
  else
    (db.notes.countP (fun n => decide (n.id ∈ ids)),
     { db with
       notes := db.notes.map (fun n =>
         if n.id ∈ ids then { n with sync_status := SyncStatus.error } else n) })

/-- One matching step of SQLite's `LIKE`: by default `LIKE` compares
ASCII characters case-insensitively. -/
def likeCharEq (p c : Char) : Bool :=
  p.toLower == c.toLower

/-- SQLite `LIKE` pattern matching (`%` matches any run, `_` any single
character, other characters compare ASCII-case-insensitively), written
with an explicit fuel so that it is structurally recursive; every
recursive call strictly decreases `pattern.length + text.length`, so
`likePatternLen + textLen + 1` fuel always suffices. -/
def likeMatchAux : Nat → List Char → List Char → Bool
  | 0, _, _ => false
  | _ + 1, [], [] => true
  | _ + 1, [], _ :: _ => false
  | fuel + 1, '%' :: p, t =>
    likeMatchAux fuel p t ||
      (match t with
       | [] => false
       | _ :: t' => likeMatchAux fuel ('%' :: p) t')
  | _ + 1, '_' :: _, [] => false
  | fuel + 1, '_' :: p, _ :: t => likeMatchAux fuel p t
  | _ + 1, _ :: _, [] => false
  | fuel + 1, pc :: p, c :: t => likeCharEq pc c && likeMatchAux fuel p t

/-- `pattern LIKE`-matches `text`. -/
def likeMatch (pattern text : List Char) : Bool :=
  likeMatchAux (pattern.length + text.length + 1) pattern text

/-- The pattern `'%' + query + '%'` that `searchNotes` binds. -/
def likePattern (query : String) : List Char :=
  '%' :: query.data ++ ['%']

/-- The `WHERE title LIKE ? OR content LIKE ?` predicate of `searchNotes`. -/
def noteMatches (query : String) (n : Note) : Bool :=
  likeMatch (likePattern query) n.title.data ||
    likeMatch (likePattern query) n.content.data

/-- `searchNotes(query)`: rows whose title or content `LIKE`-matches
`%query%`, ordered by `created_at DESC`. -/
def searchNotes (query : String) (db : DB) : List Note :=
  List.insertionSort (orderBy SortCol.created_at false)
    (db.notes.filter (noteMatches query))

/-- JavaScript's `String.prototype.includes`: plain substring containment
(used by the sync error classifier on `error.message`). -/
def stringIncludes (s sub : String) : Bool :=
  (List.range (s.length + 1)).any (fun i => sub.data.isPrefixOf (s.data.drop i))

/-- Modelled from the spec: the claim's phrase "contains query as a
substring" — literal, case-sensitive substring containment, to be
compared with the source's `LIKE`-based match. -/
def specContainsSubstring (hay needle : String) : Prop :=
  needle.data <:+: hay.data

instance (hay needle : String) : Decidable (specContainsSubstring hay needle) :=
  inferInstanceAs (Decidable (needle.data <:+: hay.data))

/-- The record returned by `getStats`. -/
structure Stats where
  total : Nat
  pending : Nat
  synced : Nat
deriving DecidableEq, Repr

/-- `getStats`: three `COUNT(*)` queries — all rows, rows with
`sync_status = 'pending'`, rows with `sync_status = 'synced'`. -/
def getStats (db : DB) : Stats :=
  { total := db.notes.length,
    pending := db.notes.countP (fun n => n.sync_status == SyncStatus.pending),
    synced := db.notes.countP (fun n => n.sync_status == SyncStatus.synced) }

/-- A 2xx response body of the remote sync endpoint. -/
structure SyncResponse where
  syncedIds : List Nat
  failedIds : List Nat
deriving DecidableEq, Repr

/-- Oracle for the single `fetch` of a sync cycle: a 2xx response with a
parsed body, a non-2xx response (`response.ok` false), or a rejection of
the `fetch` promise carrying the thrown error's message.  Node's `fetch`
rejects every transport-level failure (connection refused, DNS failure,
socket timeout) with a `TypeError` whose message is `"fetch failed"`. -/
inductive FetchOutcome where
  | ok (resp : SyncResponse)
  | httpError (status : Nat) (statusText : String)
  | failed (msg : String)
deriving DecidableEq, Repr

/-- The structured result object `syncWithBackend` resolves with
(fields that a branch does not set are `none`). -/
structure SyncResult where
  success : Bool
  synced : Nat
  failed : Option Nat
  error : Option String
  message : String
deriving DecidableEq, Repr

/-- The result returned from the offline branch of the `catch`. -/
def offlineResult : SyncResult :=
  { success := false, synced := 0, failed := none,
    error := some "Network error: App appears to be offline",
    message := "Cannot sync while offline. Changes will be synced when connection is restored." }

/-- The result returned from the generic failure branch of the `catch`. -/
def genericFailResult (msg : String) : SyncResult :=
  { success := false, synced := 0, failed := none, error := some msg,
    message := "Sync failed. Please try again later." }

/-- The `catch` block of `syncWithBackend`: an error whose message
contains `'fetch'` or `'network'` is classified as offline. -/
def classifyError (msg : String) : SyncResult :=
  if stringIncludes msg "fetch" || stringIncludes msg "network" then offlineResult
  else genericFailResult msg

/-- `syncWithBackend(apiUrl)` for one cycle, with the remote call given
by the `outcome` oracle: collect `getNotesToSync()` (early success if
empty), transmit, then either reconcile the 2xx response through
`markNotesAsSynced`/`markNotesSyncError`, or land in the `catch` (a
non-2xx response throws `Sync failed: <status> <statusText>` first) with
no status mutation. -/
def syncWithBackend (outcome : FetchOutcome) (now : Nat) (db : DB) :
    SyncResult × DB :=
  let notesToSync := getNotesToSync db
  if notesToSync.isEmpty then
    ({ success := true, synced := 0, failed := none, error := none,
       message := "No notes to sync" }, db)
  else
    match outcome with
    | FetchOutcome.failed msg => (classifyError msg, db)
    | FetchOutcome.httpError status statusText =>
      (classifyError (s!"Sync failed: {status} {statusText}"), db)
    | FetchOutcome.ok resp =>
      let db1 :=
        if resp.syncedIds.length > 0 then (markNotesAsSynced resp.syncedIds now db).2
        else db
      let db2 :=
        if resp.failedIds.length > 0 then (markNotesSyncError resp.failedIds db1).2
        else db1
      let k := resp.syncedIds.length
      ({ success := true, synced := resp.syncedIds.length,
         failed := some resp.failedIds.length, error := none,
         message := s!"Synced {k} notes successfully" }, db2)

/-- The row produced by the `SET` clause of `updateNote` on a matching
row (statement helper). -/
def updatedRow (n : Note) (t c : String) (now : Nat) : Note :=
  { n with title := t, content := c, updated_at := now,
           sync_status := SyncStatus.pending }

/-- The non-sync fields of a row: id, title, content, created_at,
updated_at (everything except `sync_status`/`synced_at`). -/
def coreFields (n : Note) : Nat × String × String × Nat × Nat :=
  (n.id, n.title, n.content, n.created_at, n.updated_at)

/-- A concrete three-note database used by the witnesses. -/
def sampleA : Note :=
  { id := 1, title := "groceries", content := "milk", created_at := 0,
    updated_at := 0, synced_at := none, sync_status := SyncStatus.pending }

/-- Second sample row. -/
def sampleB : Note :=
  { id := 2, title := "chores", content := "sweep", created_at := 1,
    updated_at := 1, synced_at := none, sync_status := SyncStatus.pending }

/-- Third sample row. -/
def sampleC : Note :=
  { id := 3, title := "ideas", content := "verse", created_at := 2,
    updated_at := 2, synced_at := none, sync_status := SyncStatus.pending }

/-- The three sample rows as a database state. -/
def sampleDb : DB :=
  { notes := [sampleA, sampleB, sampleC], nextId := 4 }

/-- A single-row database whose title contains an upper-case letter. -/
def appleNote : Note :=
  { id := 1, title := "Apple", content := "", created_at := 0,
    updated_at := 0, synced_at := none, sync_status := SyncStatus.pending }

/-- The single-row database around `appleNote`. -/
def appleDb : DB :=
  { notes := [appleNote], nextId := 2 }

/-- With unique ids, `find?` on the id predicate returns the one matching
row. -/
theorem find?_eq_of_unique_id {l : List Note} (hnd : (l.map Note.id).Nodup)
    {n : Note} (hn : n ∈ l) {i : Nat} (hi : n.id = i) :
    l.find? (fun m => m.id == i) = some n := by
  induction l with
  | nil => cases hn
  | cons a l ih =>
    rw [List.map_cons, List.nodup_cons] at hnd
    rcases List.mem_cons.mp hn with rfl | hmem
    · exact List.find?_cons_of_pos _ (by simp [hi])
    · have hne : ¬(a.id == i) = true := by
        simp only [beq_iff_eq]
        intro hai
        exact hnd.1 (hai ▸ hi ▸ List.mem_map_of_mem Note.id hmem)
      rw [@List.find?_cons_of_neg Note (fun m => m.id == i) a l hne]
      exact ih hnd.2 hmem

/-- Both status-marking maps leave the ids of the rows unchanged, so the
partition lemma below applies to `length`/`countP` bookkeeping. -/
theorem length_eq_status_partition (l : List Note) :
    l.length =
      l.countP (fun n => n.sync_status == SyncStatus.pending)
      + l.countP (fun n => n.sync_status == SyncStatus.synced)
      + l.countP (fun n => n.sync_status == SyncStatus.error) := by
  induction l with
  | nil => rfl
  | cons a l ih =>
    rcases h : a.sync_status <;>
      simp only [List.countP_cons, h, List.length_cons, ih] <;>
      simp <;> omega

/-- C10: `stats` reports total/pending/synced row counts, and every row
with status `error` is counted in `total` but in neither other count, so
`total = pending + synced + #error`. -/
theorem getStats_counts (db : DB) :
    (getStats db).total = db.notes.length
    ∧ (getStats db).pending
        = db.notes.countP (fun n => n.sync_status == SyncStatus.pending)
    ∧ (getStats db).synced
        = db.notes.countP (fun n => n.sync_status == SyncStatus.synced)
    ∧ (getStats db).total =
        (getStats db).pending + (getStats db).synced
          + db.notes.countP (fun n => n.sync_status == SyncStatus.error) :=
  ⟨rfl, rfl, rfl, length_eq_status_partition db.notes⟩

/-- C9: `markNotesAsSynced` and `markNotesSyncError` change only
`sync_status`/`synced_at`: the projection to the remaining fields is
unchanged row-by-row, and a row whose id is not targeted is entirely
unchanged. -/
theorem mark_only_touches_sync_fields (ids : List Nat) (now : Nat) (db : DB) :
    ((markNotesAsSynced ids now db).2.notes.map coreFields
        = db.notes.map coreFields)
    ∧ ((markNotesSyncError ids db).2.notes.map coreFields
        = db.notes.map coreFields)
    ∧ (∀ (j : Nat) (n : Note), db.notes[j]? = some n → n.id ∉ ids →
        (markNotesAsSynced ids now db).2.notes[j]? = some n
        ∧ (markNotesSyncError ids db).2.notes[j]? = some n) := by
  by_cases hids : ids.isEmpty
  · refine ⟨by simp [markNotesAsSynced, hids], by simp [markNotesSyncError, hids],
      fun j n hj _ => ?_⟩
    simp [markNotesAsSynced, markNotesSyncError, hids, hj]
  · unfold markNotesAsSynced markNotesSyncError
    rw [if_neg hids, if_neg hids]
    refine ⟨?_, ?_, ?_⟩
    · rw [List.map_map]
      refine List.map_congr_left (fun n _ => ?_)
      by_cases hmem : n.id ∈ ids <;> simp [coreFields, hmem]
    · rw [List.map_map]
      refine List.map_congr_left (fun n _ => ?_)
      by_cases hmem : n.id ∈ ids <;> simp [coreFields, hmem]
    · intro j n hj hnot
      constructor <;> simp [List.getElem?_map, hj, hnot]

/-- Witness for C9 at a concrete database, row and id set. -/
theorem mark_only_touches_sync_fields_witness :
    (markNotesAsSynced [2] 9 sampleDb).2.notes[0]? = some sampleA
    ∧ (markNotesSyncError [2] sampleDb).2.notes[0]? = some sampleA :=
  (mark_only_touches_sync_fields [2] 9 sampleDb).2.2 0 sampleA (by decide)
    (by decide)

/-- C8: for an id with no matching row, `getById` returns `none`,
`update` returns `none` (zero rows affected) leaving the database
unchanged, and `delete` returns `false`; deleting an existing id returns
`true` and a second delete of the same id returns `false` and changes
nothing. -/
theorem notFound_results (db : DB) (i : Nat) (t c : String) (now : Nat) :
    ((∀ n ∈ db.notes, n.id ≠ i) →
      getNoteById i db = none
      ∧ updateNote i t c now db = (none, db)
      ∧ deleteNote i db = (false, db))
    ∧ ((∃ n ∈ db.notes, n.id = i) →
      (deleteNote i db).1 = true
      ∧ deleteNote i (deleteNote i db).2 = (false, (deleteNote i db).2)) := by
  constructor
  · intro h
    have hcount : db.notes.countP (fun n => n.id == i) = 0 :=
      List.countP_eq_zero.mpr (fun a ha => by simp [h a ha])
    refine ⟨?_, ?_, ?_⟩
    · exact List.find?_eq_none.mpr (fun a ha => by simp [h a ha])
    · have hmap : db.notes.map (fun n =>
          if n.id = i then
            { n with title := t, content := c, updated_at := now,
                     sync_status := SyncStatus.pending }
          else n) = db.notes := by
        rw [List.map_congr_left (fun a ha => if_neg (h a ha))]
        exact List.map_id' db.notes
      simp [updateNote, hcount, hmap]
    · have hfilter : db.notes.filter (fun n => !(n.id == i)) = db.notes :=
        List.filter_eq_self.mpr (fun a ha => by simp [h a ha])
      simp [deleteNote, hcount, hfilter]
  · rintro ⟨n, hn, hid⟩
    have hpos : 0 < db.notes.countP (fun m => m.id == i) :=
      List.countP_pos_iff.mpr ⟨n, hn, by simp [hid]⟩
    have hall : ∀ m ∈ db.notes.filter (fun m => !(m.id == i)), m.id ≠ i := by
      intro m hm
      simpa using (List.mem_filter.mp hm).2
    have hcount2 :
        (db.notes.filter (fun m => !(m.id == i))).countP (fun m => m.id == i) = 0 :=
      List.countP_eq_zero.mpr (fun a ha => by simp [hall a ha])
    have hfilter2 :
        (db.notes.filter (fun m => !(m.id == i))).filter (fun m => !(m.id == i))
          = db.notes.filter (fun m => !(m.id == i)) :=
      List.filter_eq_self.mpr (fun a ha => by simp [hall a ha])
    refine ⟨by simp [deleteNote, hpos], ?_⟩
    simp [deleteNote, hcount2, hfilter2]

/-- Witness for C8: id 9 is absent from the sample database, id 1 is
present and double-deleted. -/
theorem notFound_results_witness :
    ((∀ n ∈ sampleDb.notes, n.id ≠ 9)
      ∧ getNoteById 9 sampleDb = none
      ∧ updateNote 9 "t" "c" 5 sampleDb = (none, sampleDb)
      ∧ deleteNote 9 sampleDb = (false, sampleDb))
    ∧ ((deleteNote 1 sampleDb).1 = true
      ∧ deleteNote 1 (deleteNote 1 sampleDb).2
          = (false, (deleteNote 1 sampleDb).2)) :=
  ⟨⟨by decide, (notFound_results sampleDb 9 "t" "c" 5).1 (by decide)⟩,
   (notFound_results sampleDb 1 "t" "c" 5).2 ⟨sampleA, by decide, by decide⟩⟩

/-- C5: `add(title, content)` returns the full persisted row carrying the
engine-assigned id, and `getById` on that id finds the same row, with
status `pending` and equal creation/update timestamps. -/
theorem addNote_then_get (t c : String) (now : Nat) (db : DB) (hWF : db.WF) :
    ∃ (m : Note) (db' : DB),
      addNote t c now db = (some m, db')
      ∧ m.id = db.nextId
      ∧ m.title = t
      ∧ m.content = c
      ∧ m.sync_status = SyncStatus.pending
      ∧ m.created_at = m.updated_at
      ∧ getNoteById m.id db' = some m := by
  refine ⟨{ id := db.nextId, title := t, content := c, created_at := now,
            updated_at := now, synced_at := none,
            sync_status := SyncStatus.pending },
          { notes := db.notes ++
              [{ id := db.nextId, title := t, content := c, created_at := now,
                 updated_at := now, synced_at := none,
                 sync_status := SyncStatus.pending }],
            nextId := db.nextId + 1 },
          ?_, rfl, rfl, rfl, rfl, rfl, ?_⟩
  · have hnone : db.notes.find? (fun n => n.id == db.nextId) = none :=
      List.find?_eq_none.mpr (fun x hx => by simp [Nat.ne_of_lt (hWF.2 x hx)])
    simp [addNote, insertRow, getNoteById, List.find?_append, hnone]
  · have hnone : db.notes.find? (fun n => n.id == db.nextId) = none :=
      List.find?_eq_none.mpr (fun x hx => by simp [Nat.ne_of_lt (hWF.2 x hx)])
    simp [getNoteById, List.find?_append, hnone]

/-- Witness for C5 on the sample database. -/
theorem addNote_then_get_witness :
    sampleDb.WF
    ∧ ∃ (m : Note) (db' : DB),
        addNote "plans" "travel" 7 sampleDb = (some m, db')
        ∧ m.id = sampleDb.nextId
        ∧ m.title = "plans"
        ∧ m.content = "travel"
        ∧ m.sync_status = SyncStatus.pending
        ∧ m.created_at = m.updated_at
        ∧ getNoteById m.id db' = some m :=
  ⟨by decide, addNote_then_get "plans" "travel" 7 sampleDb (by decide)⟩

/-- C4: updating an existing id overwrites title/content, stamps
`updated_at` with the current time, resets the status to `pending`
(whatever it was), and `getById` reads exactly that row back; under
clock monotonicity (`created_at ≤ now`) the row satisfies
`created_at ≤ updated_at`. -/
theorem updateNote_then_get (i : Nat) (t c : String) (now : Nat) (db : DB)
    (hWF : db.WF) (n : Note) (hn : n ∈ db.notes) (hid : n.id = i)
    (hclock : n.created_at ≤ now) :
    (updateNote i t c now db).1 = some (updatedRow n t c now)
    ∧ getNoteById i (updateNote i t c now db).2 = some (updatedRow n t c now)
    ∧ (updatedRow n t c now).created_at ≤ (updatedRow n t c now).updated_at := by
  have hcount : ¬ db.notes.countP (fun m => m.id == i) = 0 := by
    intro h0
    have := List.countP_eq_zero.mp h0 n hn
    simp [hid] at this
  have hpair : updateNote i t c now db =
      (getNoteById i
        { db with notes := db.notes.map (fun m =>
            if m.id = i then
              { m with title := t, content := c, updated_at := now,
                       sync_status := SyncStatus.pending }
            else m) },
       { db with notes := db.notes.map (fun m =>
            if m.id = i then
              { m with title := t, content := c, updated_at := now,
                       sync_status := SyncStatus.pending }
            else m) }) := by
    simp only [updateNote]
    rw [if_neg hcount]
  have hcomp : ((fun m : Note => m.id == i) ∘ (fun m : Note =>
      if m.id = i then
        { m with title := t, content := c, updated_at := now,
                 sync_status := SyncStatus.pending }
      else m)) = (fun m : Note => m.id == i) := by
    funext m
    by_cases hm : m.id = i <;> simp [hm]
  have hget : getNoteById i
      { db with notes := db.notes.map (fun m =>
          if m.id = i then
            { m with title := t, content := c, updated_at := now,
                     sync_status := SyncStatus.pending }
          else m) } =
      some (updatedRow n t c now) := by
    unfold getNoteById
    rw [List.find?_map, hcomp, find?_eq_of_unique_id hWF.1 hn hid]
    simp [hid, updatedRow]
  exact ⟨by rw [hpair]; exact hget, by rw [hpair]; exact hget, hclock⟩

/-- Witness for C4: update note 2 of the sample database. -/
theorem updateNote_then_get_witness :
    sampleDb.WF
    ∧ (updateNote 2 "chores" "mop" 6 sampleDb).1 =
        some (updatedRow sampleB "chores" "mop" 6)
    ∧ getNoteById 2 (updateNote 2 "chores" "mop" 6 sampleDb).2 =
        some (updatedRow sampleB "chores" "mop" 6) :=
  ⟨by decide,
   (updateNote_then_get 2 "chores" "mop" 6 sampleDb (by decide) sampleB
      (by decide) (by decide) (by decide)).1,
   (updateNote_then_get 2 "chores" "mop" 6 sampleDb (by decide) sampleB
      (by decide) (by decide) (by decide)).2.1⟩

/-- C7: a sort column outside the allow-list falls back to `created_at`
(the call cannot raise — it is a total function returning the same rows
as the validated call), and the order string is normalized by
uppercasing: anything other than `ASC` sorts descending, `ASC` (in any
case) sorts ascending. -/
theorem getNotes_fallback (sortBy order : String) (db : DB)
    (h : sortBy ∉ allowedColumns) :
    getNotes sortBy order db = getNotes "created_at" order db
    ∧ List.Perm (getNotes sortBy order db) db.notes
    ∧ (jsToUpperCase order ≠ "ASC" →
        List.Sorted (fun a b : Note => b.created_at ≤ a.created_at)
          (getNotes sortBy order db))
    ∧ (jsToUpperCase order = "ASC" →
        List.Sorted (fun a b : Note => a.created_at ≤ b.created_at)
          (getNotes sortBy order db)) := by
  have hs : (if sortBy ∈ allowedColumns then sortBy else "created_at")
      = "created_at" := if_neg h
  have hcol : parseSortCol "created_at" = SortCol.created_at := by decide
  have hgn : ∀ o : Bool, decide (jsToUpperCase order = "ASC") = o →
      getNotes sortBy order db
        = List.insertionSort (orderBy SortCol.created_at o) db.notes := by
    intro o ho
    simp only [getNotes, hs, hcol, ho]
  refine ⟨?_, ?_, ?_, ?_⟩
  · have hc : "created_at" ∈ allowedColumns := by decide
    simp only [getNotes, hs, if_pos hc]
  · rw [hgn (decide (jsToUpperCase order = "ASC")) rfl]
    exact List.perm_insertionSort _ _
  · intro h2
    rw [hgn false (decide_eq_false h2)]
    exact List.sorted_insertionSort (orderBy SortCol.created_at false) db.notes
  · intro h2
    rw [hgn true (decide_eq_true h2)]
    exact List.sorted_insertionSort (orderBy SortCol.created_at true) db.notes

/-- Witness for C7: `list('not_a_column', 'sideways')` on the sample
database. -/
theorem getNotes_fallback_witness :
    ("not_a_column" ∉ allowedColumns)
    ∧ getNotes "not_a_column" "sideways" sampleDb
        = getNotes "created_at" "sideways" sampleDb
    ∧ List.Sorted (fun a b : Note => b.created_at ≤ a.created_at)
        (getNotes "not_a_column" "sideways" sampleDb) :=
  ⟨by decide,
   (getNotes_fallback "not_a_column" "sideways" sampleDb (by decide)).1,
   (getNotes_fallback "not_a_column" "sideways" sampleDb (by decide)).2.2.1
     (by decide)⟩

/-- C2: when the remote call's promise rejects (transport-level failure),
the cycle mutates nothing — the database after the call is exactly the
database before — and whenever the thrown message contains `'fetch'` or
`'network'` (Node's `fetch` rejects every transport-level failure with a
`TypeError` whose message is `"fetch failed"`), the cycle returns the
distinguished offline-classified failure result. -/
theorem syncWithBackend_offline (msg : String) (now : Nat) (db : DB) :
    (syncWithBackend (FetchOutcome.failed msg) now db).2 = db
    ∧ (getNotesToSync db ≠ [] →
        (stringIncludes msg "fetch" || stringIncludes msg "network") = true →
        syncWithBackend (FetchOutcome.failed msg) now db
          = (offlineResult, db)) := by
  constructor
  · unfold syncWithBackend
    by_cases h : (getNotesToSync db).isEmpty <;> simp [h]
  · intro hne hmsg
    have hemp : (getNotesToSync db).isEmpty = false :=
      List.isEmpty_eq_false.mpr hne
    unfold syncWithBackend
    simp [hemp, classifyError, hmsg]

/-- Witness for C2: the sample database has pending notes, and Node's
transport-failure message `"fetch failed"` triggers the offline result. -/
theorem syncWithBackend_offline_witness :
    (getNotesToSync sampleDb ≠ [])
    ∧ (stringIncludes "fetch failed" "fetch"
        || stringIncludes "fetch failed" "network") = true
    ∧ syncWithBackend (FetchOutcome.failed "fetch failed") 9 sampleDb
        = (offlineResult, sampleDb) :=
  ⟨by decide, by decide,
   (syncWithBackend_offline "fetch failed" 9 sampleDb).2 (by decide) (by decide)⟩

/-- `bulkRows` produces one row per input. -/
theorem bulkRows_length (inputs : List NoteInput) :
    ∀ startId now : Nat, (bulkRows inputs startId now).length = inputs.length := by
  induction inputs with
  | nil => intro startId now; rfl
  | cons inp rest ih =>
    intro startId now
    simp [bulkRows, ih]

/-- When every element has a title, the transaction body inserts all the
rows, assigning consecutive ids starting at the current `nextId`. -/
theorem insertLoop_ok (now : Nat) (inputs : List NoteInput) :
    ∀ db : DB, (∀ inp ∈ inputs, inp.title.isSome) →
    insertLoop inputs now db =
      (Except.ok (List.range' db.nextId inputs.length),
       { notes := db.notes ++ bulkRows inputs db.nextId now,
         nextId := db.nextId + inputs.length }) := by
  induction inputs with
  | nil =>
    intro db _
    simp [insertLoop, bulkRows]
  | cons inp rest ih =>
    intro db hall
    obtain ⟨t, ht⟩ :=
      Option.isSome_iff_exists.mp (hall inp (List.mem_cons_self _ _))
    simp only [insertLoop, ht]
    rw [ih _ (fun x hx => hall x (List.mem_cons.mpr (Or.inr hx)))]
    simp only [insertRow, bulkRows, List.range'_succ, List.length_cons, ht]
    refine congrArg _ ?_
    refine congrArg₂ _ ?_ ?_
    · simp
    · simp [Nat.add_comm, Nat.add_assoc, Nat.add_left_comm]

/-- If some element's title is missing, the transaction body raises. -/
theorem insertLoop_err (now : Nat) (inputs : List NoteInput) :
    ∀ db : DB, (∃ inp ∈ inputs, inp.title = none) →
    ∃ db' : DB, insertLoop inputs now db =
      (Except.error "NOT NULL constraint failed: notes.title", db') := by
  induction inputs with
  | nil =>
    rintro db ⟨inp, hmem, _⟩
    cases hmem
  | cons a rest ih =>
    rintro db ⟨inp, hmem, hnone⟩
    rcases List.mem_cons.mp hmem with rfl | hmem'
    · exact ⟨db, by simp [insertLoop, hnone]⟩
    · cases ha : a.title with
      | none => exact ⟨db, by simp [insertLoop, ha]⟩
      | some tt =>
        obtain ⟨db', hdb'⟩ :=
          ih (insertRow tt (a.content.getD "") now db).2 ⟨inp, hmem', hnone⟩
        refine ⟨db', ?_⟩
        simp only [insertLoop, ha, hdb']

/-- C1: `addNotesBulk` is all-or-nothing.  When every element inserts
cleanly it returns exactly `k` ids — consecutive, hence distinct, and in
input order — and the table gains exactly `k` rows appended in input
order; when the engine raises on any element the caller gets the error
and the original, unchanged table (the transaction's partial inserts are
rolled back). -/
theorem addNotesBulk_atomic (inputs : List NoteInput) (now : Nat) (db : DB) :
    ((∀ inp ∈ inputs, inp.title.isSome) →
      addNotesBulk inputs now db =
        (Except.ok (List.range' db.nextId inputs.length),
         { notes := db.notes ++ bulkRows inputs db.nextId now,
           nextId := db.nextId + inputs.length })
      ∧ (List.range' db.nextId inputs.length).length = inputs.length
      ∧ (List.range' db.nextId inputs.length).Nodup
      ∧ (db.notes ++ bulkRows inputs db.nextId now).length
          = db.notes.length + inputs.length)
    ∧ ((∃ inp ∈ inputs, inp.title = none) →
      addNotesBulk inputs now db =
        (Except.error "NOT NULL constraint failed: notes.title", db)) := by
  constructor
  · intro hall
    refine ⟨?_, List.length_range' _ _ _, List.nodup_range' _ _, ?_⟩
    · simp only [addNotesBulk, insertLoop_ok now inputs db hall]
    · simp [bulkRows_length]
  · intro hsome
    obtain ⟨db', hdb'⟩ := insertLoop_err now inputs db hsome
    simp only [addNotesBulk, hdb']

/-- Witness for C1: a clean two-element bulk insert and a failing one on
the sample database. -/
theorem addNotesBulk_atomic_witness :
    ((∀ inp ∈ ([⟨some "x", some "y"⟩, ⟨some "z", none⟩] : List NoteInput),
        inp.title.isSome)
      ∧ addNotesBulk [⟨some "x", some "y"⟩, ⟨some "z", none⟩] 7 sampleDb =
        (Except.ok [4, 5],
         { notes := sampleDb.notes
             ++ bulkRows [⟨some "x", some "y"⟩, ⟨some "z", none⟩] 4 7,
           nextId := 6 }))
    ∧ ((∃ inp ∈ ([⟨some "x", some "y"⟩, ⟨none, none⟩] : List NoteInput),
        inp.title = none)
      ∧ addNotesBulk [⟨some "x", some "y"⟩, ⟨none, none⟩] 7 sampleDb =
        (Except.error "NOT NULL constraint failed: notes.title", sampleDb)) :=
  ⟨⟨by decide,
    ((addNotesBulk_atomic [⟨some "x", some "y"⟩, ⟨some "z", none⟩] 7 sampleDb).1
      (by decide)).1⟩,
   ⟨by decide,
    (addNotesBulk_atomic [⟨some "x", some "y"⟩, ⟨none, none⟩] 7 sampleDb).2
      (by decide)⟩⟩

/-- C3: with three pending notes A, B, C and a 2xx response carrying
`syncedIds [A, B]` and `failedIds [C]`, reconciliation marks A and B
`synced` with `synced_at` set to the cycle's timestamp (non-null), marks
C `error`, and a subsequent `notesPendingSync()` returns exactly the row
of C. -/
theorem sync_reconciliation (A B C : Note) (now nid : Nat)
    (hA : A.sync_status = SyncStatus.pending)
    (hB : B.sync_status = SyncStatus.pending)
    (hC : C.sync_status = SyncStatus.pending)
    (hAB : A.id ≠ B.id) (hAC : A.id ≠ C.id) (hBC : B.id ≠ C.id) :
    getNoteById A.id
      (syncWithBackend (FetchOutcome.ok ⟨[A.id, B.id], [C.id]⟩) now
        { notes := [A, B, C], nextId := nid }).2
      = some { A with sync_status := SyncStatus.synced, synced_at := some now }
    ∧ getNoteById B.id
      (syncWithBackend (FetchOutcome.ok ⟨[A.id, B.id], [C.id]⟩) now
        { notes := [A, B, C], nextId := nid }).2
      = some { B with sync_status := SyncStatus.synced, synced_at := some now }
    ∧ getNoteById C.id
      (syncWithBackend (FetchOutcome.ok ⟨[A.id, B.id], [C.id]⟩) now
        { notes := [A, B, C], nextId := nid }).2
      = some { C with sync_status := SyncStatus.error }
    ∧ getNotesToSync
      (syncWithBackend (FetchOutcome.ok ⟨[A.id, B.id], [C.id]⟩) now
        { notes := [A, B, C], nextId := nid }).2
      = [{ C with sync_status := SyncStatus.error }] := by
  have hBA : B.id ≠ A.id := Ne.symm hAB
  have hCA : C.id ≠ A.id := Ne.symm hAC
  have hCB : C.id ≠ B.id := Ne.symm hBC
  have hlen : (getNotesToSync { notes := [A, B, C], nextId := nid }).length = 3 := by
    unfold getNotesToSync
    rw [List.length_insertionSort]
    simp [hA, hB, hC]
  have hemp : (getNotesToSync { notes := [A, B, C], nextId := nid }).isEmpty = false := by
    rw [List.isEmpty_eq_false]
    intro hempty
    rw [hempty] at hlen
    simp at hlen
  have hstep : (syncWithBackend (FetchOutcome.ok ⟨[A.id, B.id], [C.id]⟩) now
      { notes := [A, B, C], nextId := nid }).2
      = { notes := [{ A with sync_status := SyncStatus.synced, synced_at := some now },
                    { B with sync_status := SyncStatus.synced, synced_at := some now },
                    { C with sync_status := SyncStatus.error }],
          nextId := nid } := by
    unfold syncWithBackend
    simp only [hemp, Bool.false_eq_true, if_false]
    simp [markNotesAsSynced, markNotesSyncError, hAB, hAC, hBC, hBA, hCA, hCB]
  have eAB : (A.id == B.id) = false := beq_eq_false_iff_ne.mpr hAB
  have eAC : (A.id == C.id) = false := beq_eq_false_iff_ne.mpr hAC
  have eBC : (B.id == C.id) = false := beq_eq_false_iff_ne.mpr hBC
  refine ⟨?_, ?_, ?_, ?_⟩ <;> rw [hstep]
  · simp [getNoteById, List.find?]
  · simp [getNoteById, List.find?, eAB]
  · simp [getNoteById, List.find?, eAC, eBC]
  · have s1 : (SyncStatus.synced == SyncStatus.pending) = false := rfl
    have s2 : (SyncStatus.synced == SyncStatus.error) = false := rfl
    have s3 : (SyncStatus.error == SyncStatus.pending) = false := rfl
    have s4 : (SyncStatus.error == SyncStatus.error) = true := rfl
    simp [getNotesToSync, s1, s2, s3, s4]

/-- Witness for C3 on the three pending sample notes. -/
theorem sync_reconciliation_witness :
    sampleA.sync_status = SyncStatus.pending
    ∧ sampleA.id ≠ sampleB.id
    ∧ getNotesToSync
        (syncWithBackend (FetchOutcome.ok ⟨[1, 2], [3]⟩) 9 sampleDb).2
        = [{ sampleC with sync_status := SyncStatus.error }] :=
  ⟨rfl, by decide,
   (sync_reconciliation sampleA sampleB sampleC 9 4 rfl rfl rfl
      (by decide) (by decide) (by decide)).2.2.2⟩

/-- A lone `%` pattern matches any text (given sufficient fuel). -/
theorem likeMatchAux_percent (fuel : Nat) :
    ∀ t : List Char, t.length + 1 < fuel → likeMatchAux fuel ['%'] t = true := by
  induction fuel with
  | zero => intro t h; omega
  | succ f ih =>
    intro t h
    cases t with
    | nil =>
      obtain ⟨g, rfl⟩ : ∃ g, f = g + 1 := ⟨f - 1, by omega⟩
      simp [likeMatchAux]
    | cons c t' =>
      have h2 : t'.length + 1 < f := by
        simp only [List.length_cons] at h
        omega
      simp [likeMatchAux, ih t' h2]

/-- The empty query's pattern `%%` matches any text. -/
theorem likeMatch_empty_query (t : List Char) :
    likeMatch (likePattern "") t = true := by
  show likeMatchAux (2 + t.length + 1) ['%', '%'] t = true
  obtain ⟨g, hg⟩ : ∃ g, 2 + t.length + 1 = g + 1 := ⟨2 + t.length, rfl⟩
  rw [hg]
  have hp : likeMatchAux g ['%'] t = true := likeMatchAux_percent g t (by omega)
  rw [likeMatchAux.eq_def]
  simp [hp]

/-- The `WHERE` predicate of an empty search query accepts every row. -/
theorem noteMatches_empty (n : Note) : noteMatches "" n = true := by
  unfold noteMatches
  rw [likeMatch_empty_query, likeMatch_empty_query]
  rfl

/-- C6 (amended): `search(query)` returns exactly the notes whose title
or content matches `query` under the engine's `LIKE` semantics
(ASCII-case-insensitive containment, with `%`/`_` in the query acting as
wildcards), ordered by `created_at` descending; the empty query matches
every note, and a query matching no row yields the empty sequence. -/
theorem searchNotes_like_spec (query : String) (db : DB) :
    (∀ n : Note, n ∈ searchNotes query db ↔
      n ∈ db.notes ∧ noteMatches query n = true)
    ∧ List.Sorted (fun a b : Note => b.created_at ≤ a.created_at)
        (searchNotes query db)
    ∧ List.Perm (searchNotes "" db) db.notes
    ∧ ((∀ n ∈ db.notes, noteMatches query n = false) →
        searchNotes query db = []) := by
  refine ⟨?_, ?_, ?_, ?_⟩
  · intro n
    unfold searchNotes
    rw [List.mem_insertionSort]
    exact List.mem_filter
  · exact List.sorted_insertionSort (orderBy SortCol.created_at false) _
  · unfold searchNotes
    rw [List.filter_eq_self.mpr (fun a _ => noteMatches_empty a)]
    exact List.perm_insertionSort _ _
  · intro hnone
    unfold searchNotes
    have : db.notes.filter (noteMatches query) = [] := by
      rw [List.filter_eq_nil_iff]
      intro a ha
      simp [hnone a ha]
    rw [this]
    rfl

/-- Witness for C6 (amended), at the query `'e'` on the sample database:
the two LIKE matches come back newest-first, and a no-match query yields
the empty list. -/
theorem searchNotes_like_spec_witness :
    (sampleC ∈ searchNotes "e" sampleDb ↔
      sampleC ∈ sampleDb.notes ∧ noteMatches "e" sampleC = true)
    ∧ List.Perm (searchNotes "" sampleDb) sampleDb.notes
    ∧ ((∀ n ∈ sampleDb.notes, noteMatches "xyz-no-match" n = false) →
        searchNotes "xyz-no-match" sampleDb = []) :=
  ⟨(searchNotes_like_spec "e" sampleDb).1 sampleC,
   (searchNotes_like_spec "e" sampleDb).2.2.1,
   (searchNotes_like_spec "xyz-no-match" sampleDb).2.2.2⟩

/-- Counterexample to C6 as stated: SQLite `LIKE` is ASCII-case-
insensitive by default, so `search('apple')` returns the note titled
`'Apple'` even though neither its title nor its content contains the
query `'apple'` as a (case-sensitive) substring. -/
theorem searchNotes_substring_counterexample :
    searchNotes "apple" appleDb = [appleNote]
    ∧ ¬ specContainsSubstring appleNote.title "apple"
    ∧ ¬ specContainsSubstring appleNote.content "apple" :=
  ⟨by decide, by decide, by decide⟩

end NotesDb
